import Mathlib

/-!
Shallow embedding of the DeFi yield data-collection pipeline
(`src/data/collect_apy_data.py` and `src/data/build_timeseries.py`).

Modelling conventions:
* A JSON pool object / pandas row is an association list `Row` from column
  names to `Value`s; a pandas `DataFrame` is a `Frame` (explicit column
  list plus rows).  A key absent from a row reads as `Value.null`
  (pandas `NaN`) through `rowGet`, and as `none` through `rowFind`
  (Python `dict.get` with no default).
* Numbers are exact rationals `ℚ` in place of Python floats; every
  arithmetic fact proved below involves only values on which float and
  rational arithmetic agree.  `np.log1p` is kept symbolic via the
  `Value.vlog` constructor since no claim depends on its numeric value.
* Python string `.lower()`/`.upper()` becomes `strLower`/`strUpper`
  below (identical on the ASCII data this pipeline handles).
* I/O is made explicit: the HTTP response is a parameter of
  `fetch_defillama_pools`; file writes are returned as `(path, frame)`
  lists; `datetime.now()`-derived stamps are parameters.
-/

/-- A scalar cell value: JSON/pandas `null`/`NaN`, a number, a string,
or the symbolic result `vlog q` of `np.log1p q`. -/
inductive Value where
  | null : Value
  | num (q : ℚ) : Value
  | str (s : String) : Value
  | vlog (q : ℚ) : Value
  deriving DecidableEq, Repr

/-- One pool object / data-frame row: an association list from column
names to values (first binding wins, as in a Python dict). -/
abbrev Row := List (String × Value)

/-- A pandas `DataFrame`: an ordered list of column names and the rows. -/
structure Frame where
  cols : List String
  rows : List Row
  deriving DecidableEq, Repr

/-- Python `dict.get k` with no default: `some v` when the key is bound. -/
def rowFind (r : Row) (k : String) : Option Value :=
  (r.find? (fun kv => kv.1 == k)).map Prod.snd

/-- Reading a cell of a data frame: an absent key is pandas `NaN`. -/
def rowGet (r : Row) (k : String) : Value :=
  (rowFind r k).getD Value.null

/-- Reading `pool.get(k, d)` followed by use as a string.  The pipeline's JSON
fields of interest are strings when present; a non-string value (on which
Python would raise at `.lower()`) also maps to the default here. -/
def strOfD (r : Row) (k : String) (d : String) : String :=
  match rowFind r k with
  | some (Value.str s) => s
  | _ => d

/-- Python `str.lower()` restricted to its ASCII action (all catalogue
entries and fields compared in this pipeline are ASCII). -/
def strLower (s : String) : String := String.mk (s.data.map Char.toLower)

/-- Python `str.upper()` restricted to its ASCII action. -/
def strUpper (s : String) : String := String.mk (s.data.map Char.toUpper)

/-- Test that `pre` starts the list `l` (structural, so that concrete
string facts evaluate in the kernel). -/
def leadsWith : List Char → List Char → Bool
  | [], _ => true
  | _ :: _, [] => false
  | a :: pre, b :: l => a == b && leadsWith pre l

/-- Python `needle in hay` on strings: substring containment. -/
def substrIn (needle hay : String) : Bool :=
  hay.data.tails.any (fun t => leadsWith needle.data t)

/-- The `LENDING_PROTOCOLS` dict from `collect_apy_data.py`. -/
def LENDING_PROTOCOLS : List (String × List String) :=
  [("tier_1_established",
    ["aave-v3", "aave-v2", "compound-v3", "compound-v2", "compound-finance",
     "maker", "makerdao"]),
   ("tier_2_morpho_ecosystem",
    ["morpho-blue", "morpho-aave", "morpho-compound"]),
   ("tier_3_emerging",
    ["spark", "radiant", "venus", "benqi", "euler", "silo", "ajna",
     "granary", "dforce", "tectonic", "moonwell", "angle", "sturdy"]),
   ("cross_chain_native", ["stargate", "layerzero"]),
   ("flow_ecosystem", ["kittypunk", "moremarkets", "increment", "flowty"]),
   ("other_chains", ["solend", "port-finance", "apricot", "tulip"])]

/-- Flattening: `ALL_PROTOCOLS = [p for tier in LENDING_PROTOCOLS.values() for p in tier]`. -/
def ALL_PROTOCOLS : List String := (LENDING_PROTOCOLS.map Prod.snd).flatten

/-- The `STABLECOINS` list from `collect_apy_data.py`. -/
def STABLECOINS : List String :=
  ["USDC", "USDT", "DAI", "BUSD", "TUSD", "USDP", "GUSD", "LUSD",
   "FRAX", "UST", "USDD", "USDC.E", "USDbC", "stgUSDC",
   "EURC", "EURS", "EURT", "agEUR",
   "sUSD", "MIM", "USDF", "crvUSD", "GHO"]

/-- The `BLOCKCHAIN_NETWORKS` list from `collect_apy_data.py`. -/
def BLOCKCHAIN_NETWORKS : List String :=
  ["Ethereum",
   "Arbitrum", "Optimism", "Base", "zkSync Era", "Polygon zkEVM",
   "Linea", "Scroll", "Mantle", "Blast",
   "Polygon", "BNB Chain", "Avalanche", "Fantom",
   "Gnosis", "Celo", "Harmony", "Moonbeam", "Moonriver",
   "Flow", "Solana", "Near", "Aurora",
   "Metis", "Boba", "Cronos"]

/-- The `excluded_types` local list of `filter_stablecoin_lending_pools`. -/
def excluded_types : List String :=
  ["lp", "vault", "farm", "leverage", "perp", "options"]

/-- The per-pool predicate of the loop body of
`filter_stablecoin_lending_pools`: a pool is appended to `filtered` iff
this returns `true`. -/
def keepPool (pool : Row) : Bool :=
  let project := (strLower (strOfD pool "project" ""))
  let symbol := (strUpper (strOfD pool "symbol" ""))
  let chain := strOfD pool "chain" ""
  let apy := rowFind pool "apy"
  let pool_id := strOfD pool "pool" ""
  if excluded_types.any (fun ex_type => substrIn ex_type (strLower pool_id)) then
    false
  else
    let is_lending := ALL_PROTOCOLS.any (fun proto => substrIn proto project)
    let is_stable := STABLECOINS.any (fun stable => substrIn stable symbol)
    let is_tracked_chain := BLOCKCHAIN_NETWORKS.contains chain
    let has_apy := match apy with
      | some (Value.num q) => decide (0 < q)
      | _ => false
    is_lending && is_stable && is_tracked_chain && has_apy

/-- Column list of `pd.DataFrame(list_of_dicts)`: union of the rows' keys
in order of first appearance. -/
def colsOfRows (rows : List Row) : List String :=
  rows.foldl
    (fun acc r =>
      r.foldl (fun a kv => if a.contains kv.1 then a else a ++ [kv.1]) acc)
    []

/-- Function `filter_stablecoin_lending_pools` from `collect_apy_data.py`:
keeps the pools passing `keepPool` (an empty result is the empty
`pd.DataFrame()`). -/
def filter_stablecoin_lending_pools (pools : List Row) : Frame :=
  let filtered := pools.filter keepPool
  if filtered.isEmpty then ⟨[], []⟩
  else ⟨colsOfRows filtered, filtered⟩

/-- Function `classify_protocol_tier` from `collect_apy_data.py`. -/
def classify_protocol_tier (protocol : String) : String :=
  let protocol := strLower protocol
  if ["aave", "compound", "maker"].any (fun p => substrIn p protocol) then
    "Tier 1 - Blue Chip"
  else if ["morpho", "spark"].any (fun p => substrIn p protocol) then
    "Tier 2 - Established"
  else if ["radiant", "venus", "benqi", "euler"].any (fun p => substrIn p protocol) then
    "Tier 3 - Emerging"
  else
    "Tier 4 - New/Niche"

/-- Function `classify_chain_type` from `collect_apy_data.py`. -/
def classify_chain_type (chain : String) : String :=
  let l2s := ["Arbitrum", "Optimism", "Base", "zkSync", "Polygon zkEVM",
              "Linea", "Scroll", "Mantle", "Blast"]
  let sidechains := ["Polygon", "BNB Chain", "Avalanche", "Fantom", "Gnosis"]
  let alt_l1s := ["Flow", "Solana", "Near", "Aurora"]
  if chain == "Ethereum" then "L1 - Ethereum"
  else if l2s.contains chain then "L2 - Rollup"
  else if sidechains.contains chain then "Sidechain"
  else if alt_l1s.contains chain then "Alt L1"
  else "Other"

/-- Function `classify_stablecoin_type` from `collect_apy_data.py`. -/
def classify_stablecoin_type (asset : String) : String :=
  let asset_upper := strUpper asset
  if ["USDC", "USDT", "BUSD", "EURC", "TUSD", "GUSD"].any
      (fun s => substrIn s asset_upper) then
    "Fiat-backed"
  else if ["DAI", "LUSD", "FRAX", "SUSD", "CRVUSD", "GHO"].any
      (fun s => substrIn s asset_upper) then
    "Decentralized"
  else if ["UST", "USDD", "MIM"].any (fun s => substrIn s asset_upper) then
    "Algorithmic"
  else
    "Other"

/-- Pandas elementwise subtraction; `NaN` (and any non-numeric operand)
propagates as `null`. -/
def vSub : Value → Value → Value
  | Value.num a, Value.num b => Value.num (a - b)
  | _, _ => Value.null

/-- Pandas elementwise `abs`; `NaN` propagates. -/
def vAbs : Value → Value
  | Value.num a => Value.num |a|
  | _ => Value.null

/-- Pandas elementwise addition; `NaN` propagates. -/
def vAdd : Value → Value → Value
  | Value.num a, Value.num b => Value.num (a + b)
  | _, _ => Value.null

/-- Pandas elementwise division; `NaN` propagates.  In the pipeline the
denominator is `apy_volatility + 0.5 > 0` (resp. the constant `1e6`),
so the `ℚ`-convention value at a zero denominator is never reached. -/
def vDiv : Value → Value → Value
  | Value.num a, Value.num b => Value.num (a / b)
  | _, _ => Value.null

/-- Pandas `.fillna(0)` before a numeric use: `NaN` becomes `0`. -/
def vFillZero : Value → ℚ
  | Value.num a => a
  | _ => 0

/-- Semantics of `pd.cut(tvl, bins=[0, 1e6, 10e6, 100e6, inf], labels=[...])` on one
scalar.  `pd.cut` keeps its default `right=True`, so the bins are the
left-open/right-closed intervals `(0,1e6]`, `(1e6,10e6]`, `(10e6,100e6]`,
`(100e6,inf)`; a value outside every bin (here `tvl ≤ 0`) gets `NaN`. -/
def tvl_category_label (q : ℚ) : Option String :=
  if q ≤ 0 then none
  else if q ≤ 1000000 then some "<$1M"
  else if q ≤ 10000000 then some "$1-10M"
  else if q ≤ 100000000 then some "$10-100M"
  else some ">$100M"

/-- Bucketing `pd.cut` applied to one cell: `NaN` in, `NaN` out. -/
def vTvlCategory : Value → Value
  | Value.num q =>
      match tvl_category_label q with
      | some lab => Value.str lab
      | none => Value.null
  | _ => Value.null

/-- The `rename_map` from `enrich_data` (source column → canonical column). -/
def rename_map : List (String × String) :=
  [("project", "protocol"), ("symbol", "asset"), ("tvlUsd", "tvl_usd"),
   ("apy", "apy_total"), ("apyBase", "apy_base"), ("apyReward", "apy_reward"),
   ("apyMean30d", "apy_30d_avg"), ("apyPct1D", "apy_change_1d"),
   ("apyPct7D", "apy_change_7d"), ("apyPct30D", "apy_change_30d"),
   ("stablecoin", "is_stablecoin_flag"), ("ilRisk", "il_risk"),
   ("exposure", "token_exposure")]

/-- The column renaming of `df.rename(columns=...)`: a name is replaced
by its image under `rename_map` when it has one (restricting the map to
the columns actually present does not change which columns get renamed). -/
def renameCol (c : String) : String :=
  ((rename_map.find? (fun kv => kv.1 == c)).map Prod.snd).getD c

/-- Renaming `df.rename(columns=...)` over the whole frame. -/
def renameFrame (fr : Frame) : Frame :=
  ⟨fr.cols.map renameCol,
   fr.rows.map (fun r => r.map (fun kv => (renameCol kv.1, kv.2)))⟩

/-- Assignment `df[k] = v` at row level: overwrite the binding in place when the key
exists (keys are unique in a well-formed row), otherwise append it. -/
def setRow : Row → String → Value → Row
  | [], k, v => [(k, v)]
  | kv :: tl, k, v => if kv.1 == k then (k, v) :: tl else kv :: setRow tl k v

/-- Column list after `df[c] = ...`: a new column is appended at the end. -/
def addColName (cols : List String) (c : String) : List String :=
  if cols.contains c then cols else cols ++ [c]

/-- Assignment `df[c] = <elementwise f>`: assignment of a computed column. -/
def setCol (fr : Frame) (c : String) (f : Row → Value) : Frame :=
  ⟨addColName fr.cols c, fr.rows.map (fun r => setRow r c (f r))⟩

/-- Assignment `df[dst] = df[src].apply(g)` for a string classifier `g`.  Pandas
raises `KeyError` when `src` is not a column, and the classifier raises
`AttributeError` (e.g. `.lower()` on a float) when a cell is not a
string; both surface as `Except.error`. -/
def applyCol (fr : Frame) (src dst : String) (g : String → String) :
    Except String Frame :=
  if fr.cols.contains src then
    (fr.rows.mapM (fun r =>
      match rowGet r src with
      | Value.str s => Except.ok (setRow r dst (Value.str (g s)))
      | _ => Except.error "AttributeError")).map
      (fun rows2 => ⟨addColName fr.cols dst, rows2⟩)
  else
    Except.error ("KeyError: " ++ src)

/-- Timestamp columns and renaming: the first statements of `enrich_data`
(`df['timestamp'] = ...`, `df['date'] = ...`, `df['collection_hour'] = ...`,
`df.rename(...)`), with the `datetime.now()`-derived scalars as
parameters. -/
def enrichBase (ts dateStr : String) (hour : ℚ) (fr : Frame) : Frame :=
  renameFrame
    (setCol
      (setCol (setCol fr "timestamp" (fun _ => Value.str ts))
        "date" (fun _ => Value.str dateStr))
      "collection_hour" (fun _ => Value.num hour))

/-- Step 1 of `enrich_data`: `apy_volatility`, guarded on its inputs. -/
def enrichVol (fr : Frame) : Frame :=
  if fr.cols.contains "apy_total" && fr.cols.contains "apy_30d_avg" then
    setCol fr "apy_volatility"
      (fun r => vAbs (vSub (rowGet r "apy_30d_avg") (rowGet r "apy_total")))
  else fr

/-- Step 2 of `enrich_data`: the TVL metrics, guarded on `tvl_usd`.
`tvl_log = np.log1p(tvl_usd.fillna(0))` is kept symbolic as `vlog`. -/
def enrichTvl (fr : Frame) : Frame :=
  if fr.cols.contains "tvl_usd" then
    setCol
      (setCol
        (setCol fr "tvl_millions"
          (fun r => vDiv (rowGet r "tvl_usd") (Value.num 1000000)))
        "tvl_log" (fun r => Value.vlog (vFillZero (rowGet r "tvl_usd"))))
      "tvl_category" (fun r => vTvlCategory (rowGet r "tvl_usd"))
  else fr

/-- Step 3 of `enrich_data`: `sharpe_proxy`, guarded on its inputs. -/
def enrichSharpe (fr : Frame) : Frame :=
  if fr.cols.contains "apy_total" && fr.cols.contains "apy_volatility" then
    setCol fr "sharpe_proxy"
      (fun r => vDiv (rowGet r "apy_total")
        (vAdd (rowGet r "apy_volatility") (Value.num (1/2))))
  else fr

/-- Steps 1-3 of `enrich_data` (the independently guarded metrics). -/
def enrichMetrics (fr : Frame) : Frame := enrichSharpe (enrichTvl (enrichVol fr))

/-- Steps 4-6 of `enrich_data`: the three classification columns, applied
unconditionally (no column guard in the source). -/
def enrichClassify (fr : Frame) : Except String Frame := do
  let a ← applyCol fr "protocol" "protocol_tier" classify_protocol_tier
  let b ← applyCol a "chain" "chain_type" classify_chain_type
  applyCol b "asset" "stable_type" classify_stablecoin_type

/-- Function `enrich_data` from `collect_apy_data.py`. -/
def enrich_data (ts dateStr : String) (hour : ℚ) (df : Frame) :
    Except String Frame :=
  if df.rows.isEmpty then Except.ok df
  else enrichClassify (enrichMetrics (enrichBase ts dateStr hour df))

/-- The string content of a cell (the classifiers are only ever applied
to string cells in the proofs below). -/
def rowStr (r : Row) (k : String) : String :=
  match rowGet r k with
  | Value.str s => s
  | _ => ""

/-- The row transformation performed by the timestamp columns of
`enrich_data` (renaming leaves these rows untouched when no key of the
frame is a `rename_map` source). -/
def baseRowF (ts dateStr : String) (hour : ℚ) (r : Row) : Row :=
  setRow (setRow (setRow r "timestamp" (Value.str ts)) "date" (Value.str dateStr))
    "collection_hour" (Value.num hour)

/-- Lexicographic code-point `≤` on character lists: how Python (and
hence pandas `sort_values` on string columns) compares strings. -/
def charListLe : List Char → List Char → Bool
  | [], _ => true
  | _ :: _, [] => false
  | a :: as, b :: bs => if a < b then true else if b < a then false else charListLe as bs

/-- String `≤` by code points. -/
def strLe (s t : String) : Bool := charListLe s.data t.data

/-- The `sort_values(['pool', 'date'])` key order: lexicographic on the
`pool` string, ties broken by the `date` string.  (Both columns hold
strings in every snapshot the Collector writes; `rowStr` reads them.) -/
def keyLe (r1 r2 : Row) : Bool :=
  if rowStr r1 "pool" == rowStr r2 "pool" then
    strLe (rowStr r1 "date") (rowStr r2 "date")
  else strLe (rowStr r1 "pool") (rowStr r2 "pool")

/-- Test that `suffix` ends the list `l`. -/
def endsWithChars (suffix l : List Char) : Bool :=
  leadsWith suffix.reverse l.reverse

/-- The glob `defi_yields_*.csv` of `build_panel_dataset`: the fixed
prefix, the fixed suffix, and anything (possibly empty) in between. -/
def matchesSnapshotGlob (name : String) : Bool :=
  leadsWith "defi_yields_".data name.data
    && endsWithChars ".csv".data (name.data.drop "defi_yields_".data.length)

/-- The snapshot files `build_panel_dataset` loads: those matching the
glob, minus every file whose name contains `latest`
(`files = [f for f in files if 'latest' not in f.name]`). -/
def selectFiles (raw : List (String × Frame)) : List (String × Frame) :=
  (raw.filter (fun f => matchesSnapshotGlob f.1)).filter
    (fun f => !(substrIn "latest" f.1))

/-- Column union of `pd.concat`, in order of first appearance. -/
def colsUnion (css : List (List String)) : List String :=
  css.foldl
    (fun acc cs => cs.foldl (fun a c => if a.contains c then a else a ++ [c]) acc)
    []

/-- Function `build_panel_dataset` from `build_timeseries.py`.  The directory
listing is the explicit `raw` argument; the returned pair is the Python
return value together with the list of files written.  With zero
snapshot files it returns `None` and writes nothing; otherwise it
concatenates the snapshots, sorts by `(pool, date)`, and writes
`processed/yield_panel.csv`. -/
def build_panel_dataset (raw : List (String × Frame)) :
    Option Frame × List (String × Frame) :=
  let files := selectFiles raw
  if files.isEmpty then (none, [])
  else
    let panel : Frame :=
      ⟨colsUnion (files.map (fun f => f.2.cols)),
       ((files.map (fun f => f.2.rows)).flatten).mergeSort keyLe⟩
    (some panel, [("processed/yield_panel.csv", panel)])

/-- Function `fetch_defillama_pools` from `collect_apy_data.py`: the HTTP outcome
is the explicit `resp` argument — `Except.error` for any
`requests.exceptions.RequestException` (caught: the function returns
`[]`), `Except.ok` holding the parsed body's optional `data` array
(`data.get('data', [])`). -/
def fetch_defillama_pools (resp : Except String (Option (List Row))) : List Row :=
  match resp with
  | Except.ok j => j.getD []
  | Except.error _ => []

/-- Function `save_comprehensive_dataset`: writes the timestamped snapshot and the
`latest` file (returned as path/frame pairs); nothing on an empty frame. -/
def save_comprehensive_dataset (df : Frame) (stamp : String) :
    List (String × Frame) :=
  if df.rows.isEmpty then []
  else [("raw/defi_yields_" ++ stamp ++ ".csv", df),
        ("raw/defi_yields_latest.csv", df)]

/-- Function `main` from `collect_apy_data.py` (renamed: Lean reserves `main`),
as the list of files it writes:
an empty fetch aborts the run before any write, as does an empty filter
result (and an `enrich_data` exception would propagate before the save). -/
def main_collector (resp : Except String (Option (List Row))) (ts dateStr : String)
    (hour : ℚ) (stamp : String) : List (String × Frame) :=
  let all_pools := fetch_defillama_pools resp
  if all_pools.isEmpty then []
  else
    let df_filtered := filter_stablecoin_lending_pools all_pools
    if df_filtered.rows.isEmpty then []
    else
      match enrich_data ts dateStr hour df_filtered with
      | Except.error _ => []
      | Except.ok df_enriched => save_comprehensive_dataset df_enriched stamp

theorem filter_rows_eq (pools : List Row) :
    (filter_stablecoin_lending_pools pools).rows = pools.filter keepPool := by
  unfold filter_stablecoin_lending_pools
  by_cases h : (pools.filter keepPool).isEmpty
  · simp only [h, if_pos]
    exact ((List.isEmpty_iff).1 h).symm
  · simp [h]

theorem has_apy_iff (pool : Row) :
    ((match rowFind pool "apy" with
      | some (Value.num q) => decide (0 < q)
      | _ => false) = true)
      ↔ ∃ q : ℚ, rowFind pool "apy" = some (Value.num q) ∧ 0 < q := by
  cases hv : rowFind pool "apy" with
  | none => simp
  | some v =>
    cases v <;> simp

theorem keepPool_iff (pool : Row) :
    keepPool pool = true ↔
      ((∀ ex ∈ excluded_types,
          substrIn ex (strLower (strOfD pool "pool" "")) = false)
       ∧ (∃ proto ∈ ALL_PROTOCOLS,
            substrIn proto (strLower (strOfD pool "project" "")) = true)
       ∧ (∃ stable ∈ STABLECOINS,
            substrIn stable (strUpper (strOfD pool "symbol" "")) = true)
       ∧ (strOfD pool "chain" "") ∈ BLOCKCHAIN_NETWORKS
       ∧ (∃ q : ℚ, rowFind pool "apy" = some (Value.num q) ∧ 0 < q)) := by
  unfold keepPool
  by_cases hex :
      (excluded_types.any
        (fun ex_type => substrIn ex_type (strLower (strOfD pool "pool" "")))) = true
  · rw [if_pos hex]
    constructor
    · intro h; exact absurd h (by simp)
    · rintro ⟨hall, -⟩
      rcases List.any_eq_true.1 hex with ⟨ex, hmem, hsub⟩
      have := hall ex hmem
      rw [this] at hsub
      exact absurd hsub (by simp)
  · rw [if_neg hex]
    simp only [Bool.and_eq_true]
    rw [has_apy_iff]
    constructor
    · rintro ⟨⟨⟨hl, hs⟩, hc⟩, ha⟩
      refine ⟨?_, ?_, ?_, ?_, ha⟩
      · intro ex hmem
        by_contra hne
        exact hex (List.any_eq_true.2 ⟨ex, hmem, by
          cases h : substrIn ex (strLower (strOfD pool "pool" "")) with
          | false => exact absurd h hne
          | true => rfl⟩)
      · exact List.any_eq_true.1 hl
      · exact List.any_eq_true.1 hs
      · simpa using hc
    · rintro ⟨-, hl, hs, hc, ha⟩
      refine ⟨⟨⟨List.any_eq_true.2 hl, List.any_eq_true.2 hs⟩, by simpa using hc⟩, ha⟩

/-- C1: `filter_stablecoin_lending_pools` retains a pool iff its pool id
(lowercased) contains no excluded token, its project (lowercased)
contains some catalogued lending protocol, its symbol (uppercased)
contains some stablecoin ticker, its chain is exactly a tracked network,
and its apy is a present numeric value strictly greater than zero. -/
theorem C1_filter_characterization (pools : List Row) (pool : Row) :
    pool ∈ (filter_stablecoin_lending_pools pools).rows ↔
      (pool ∈ pools
       ∧ (∀ ex ∈ excluded_types,
            substrIn ex (strLower (strOfD pool "pool" "")) = false)
       ∧ (∃ proto ∈ ALL_PROTOCOLS,
            substrIn proto (strLower (strOfD pool "project" "")) = true)
       ∧ (∃ stable ∈ STABLECOINS,
            substrIn stable (strUpper (strOfD pool "symbol" "")) = true)
       ∧ (strOfD pool "chain" "") ∈ BLOCKCHAIN_NETWORKS
       ∧ (∃ q : ℚ, rowFind pool "apy" = some (Value.num q) ∧ 0 < q)) := by
  rw [filter_rows_eq, List.mem_filter, keepPool_iff, and_assoc.symm, and_assoc]

/-- C9: the retained pools form an order-preserving sublist of the input:
the filter never reorders, duplicates or modifies retained records. -/
theorem C9_filter_sublist (pools : List Row) :
    List.Sublist (filter_stablecoin_lending_pools pools).rows pools := by
  rw [filter_rows_eq]
  exact List.filter_sublist pools

/-- C4: the classifiers are first-match-wins over fixed substring lists
with a fixed fallback, and the spec's three concrete examples hold. -/
theorem C4_classification (protocol : String) :
    ((["aave", "compound", "maker"].any
        (fun p => substrIn p (strLower protocol))) = true →
       classify_protocol_tier protocol = "Tier 1 - Blue Chip")
    ∧ ((["aave", "compound", "maker"].any
          (fun p => substrIn p (strLower protocol))) = false →
       (["morpho", "spark"].any (fun p => substrIn p (strLower protocol))) = true →
       classify_protocol_tier protocol = "Tier 2 - Established")
    ∧ ((["aave", "compound", "maker"].any
          (fun p => substrIn p (strLower protocol))) = false →
       (["morpho", "spark"].any (fun p => substrIn p (strLower protocol))) = false →
       (["radiant", "venus", "benqi", "euler"].any
          (fun p => substrIn p (strLower protocol))) = true →
       classify_protocol_tier protocol = "Tier 3 - Emerging")
    ∧ ((["aave", "compound", "maker"].any
          (fun p => substrIn p (strLower protocol))) = false →
       (["morpho", "spark"].any (fun p => substrIn p (strLower protocol))) = false →
       (["radiant", "venus", "benqi", "euler"].any
          (fun p => substrIn p (strLower protocol))) = false →
       classify_protocol_tier protocol = "Tier 4 - New/Niche")
    ∧ classify_protocol_tier "Aave-V3" = "Tier 1 - Blue Chip"
    ∧ classify_chain_type "Arbitrum" = "L2 - Rollup"
    ∧ classify_stablecoin_type "USDC" = "Fiat-backed" := by
  refine ⟨?_, ?_, ?_, ?_, by decide, by decide, by decide⟩
  · intro h1
    unfold classify_protocol_tier
    rw [if_pos h1]
  · intro h1 h2
    unfold classify_protocol_tier
    rw [if_neg (by simp [h1]), if_pos h2]
  · intro h1 h2 h3
    unfold classify_protocol_tier
    rw [if_neg (by simp [h1]), if_neg (by simp [h2]), if_pos h3]
  · intro h1 h2 h3
    unfold classify_protocol_tier
    rw [if_neg (by simp [h1]), if_neg (by simp [h2]), if_neg (by simp [h3])]

/-- Witness for C4 at concrete protocols exercising each tier branch. -/
theorem C4_classification_witness :
    classify_protocol_tier "morpho-blue" = "Tier 2 - Established" :=
  (C4_classification "morpho-blue").2.1 (by decide) (by decide)

theorem rowFind_setRow_self (r : Row) (k : String) (v : Value) :
    rowFind (setRow r k v) k = some v := by
  induction r with
  | nil => simp [setRow, rowFind]
  | cons hd tl ih =>
    by_cases h1 : hd.1 == k
    · simp [setRow, rowFind, h1]
    · have h1f : (hd.1 == k) = false := by simpa using h1
      simp only [setRow, h1f, Bool.false_eq_true, ite_false]
      rw [rowFind] at ih
      rw [rowFind, List.find?_cons, h1f]
      exact ih

theorem rowFind_setRow_ne (r : Row) (k : String) (v : Value) (k2 : String)
    (h : k ≠ k2) :
    rowFind (setRow r k v) k2 = rowFind r k2 := by
  induction r with
  | nil => simp [setRow, rowFind, h]
  | cons hd tl ih =>
    by_cases h1 : hd.1 == k
    · have hk : hd.1 = k := by simpa using h1
      rw [setRow]
      simp only [h1, ite_true]
      rw [rowFind, rowFind, List.find?_cons, List.find?_cons]
      have hne : (k == k2) = false := by simpa using h
      have hne2 : (hd.1 == k2) = false := by simp [hk]; simpa using h
      simp only [hne, hne2]
    · rw [setRow]
      simp only [h1, Bool.false_eq_true, ite_false]
      rw [rowFind, rowFind, List.find?_cons, List.find?_cons]
      by_cases h2 : hd.1 == k2
      · simp only [h2]
      · simp only [(by simpa using h2 : (hd.1 == k2) = false)]
        exact ih

theorem rowGet_setRow_self (r : Row) (k : String) (v : Value) :
    rowGet (setRow r k v) k = v := by
  rw [rowGet, rowFind_setRow_self]
  rfl

theorem rowGet_setRow_ne (r : Row) (k : String) (v : Value) (k2 : String)
    (h : k ≠ k2) :
    rowGet (setRow r k v) k2 = rowGet r k2 := by
  rw [rowGet, rowFind_setRow_ne r k v k2 h, rowGet]

theorem mem_addColName (cols : List String) (c c2 : String) :
    c2 ∈ addColName cols c ↔ c2 ∈ cols ∨ c2 = c := by
  unfold addColName
  by_cases h : cols.contains c = true
  · have hc : c ∈ cols := by simpa using h
    rw [if_pos h]
    constructor
    · exact Or.inl
    · rintro (h2 | rfl)
      · exact h2
      · exact hc
  · rw [if_neg h]
    simp [List.mem_append]

theorem mapM_eq_map_of_ok {α β : Type} (f : α → Except String β) (g : α → β)
    (l : List α) (h : ∀ a ∈ l, f a = Except.ok (g a)) :
    l.mapM f = Except.ok (l.map g) := by
  induction l with
  | nil => rfl
  | cons x xs ih =>
    rw [List.map_cons, List.mapM_cons, h x (List.mem_cons_self x xs),
      ih (fun a ha => h a (List.mem_cons_of_mem x ha))]
    rfl

theorem rowFind_renameRow (r : Row) (k : String)
    (h : ∀ kv ∈ r, renameCol kv.1 = kv.1) :
    rowFind (r.map (fun kv => (renameCol kv.1, kv.2))) k = rowFind r k := by
  induction r with
  | nil => rfl
  | cons hd tl ih =>
    have hhd : renameCol hd.1 = hd.1 := h hd (List.mem_cons_self hd tl)
    rw [List.map_cons, rowFind, rowFind, List.find?_cons, List.find?_cons]
    simp only [hhd]
    by_cases h2 : hd.1 == k
    · simp only [h2]
    · have h2f : (hd.1 == k) = false := by simpa using h2
      simp only [h2f]
      exact ih (fun kv hm => h kv (List.mem_cons_of_mem _ hm))

theorem rowGet_renameRow (r : Row) (k : String)
    (h : ∀ kv ∈ r, renameCol kv.1 = kv.1) :
    rowGet (r.map (fun kv => (renameCol kv.1, kv.2))) k = rowGet r k := by
  rw [rowGet, rowFind_renameRow r k h, rowGet]

theorem map_renameCol_id (l : List String) (h : ∀ c ∈ l, renameCol c = c) :
    l.map renameCol = l :=
  (List.map_congr_left h).trans (List.map_id l)

theorem setCol_preserveP (fr : Frame) (c : String) (f : Row → Value)
    (k : String) (h : c ≠ k) (P : Value → Prop)
    (hp : ∀ r ∈ fr.rows, P (rowGet r k)) :
    ∀ r2 ∈ (setCol fr c f).rows, P (rowGet r2 k) := by
  intro r2 hr2
  simp only [setCol] at hr2
  rcases List.mem_map.1 hr2 with ⟨r, hr, rfl⟩
  rw [rowGet_setRow_ne _ _ _ _ h]
  exact hp r hr

theorem applyCol_ok (fr : Frame) (src dst : String) (g : String → String)
    (hsrc : src ∈ fr.cols)
    (hstr : ∀ r ∈ fr.rows, ∃ s, rowGet r src = Value.str s) :
    applyCol fr src dst g =
      Except.ok ⟨addColName fr.cols dst,
        fr.rows.map (fun r => setRow r dst (Value.str (g (rowStr r src))))⟩ := by
  unfold applyCol
  rw [if_pos (by simpa using hsrc : fr.cols.contains src = true)]
  rw [mapM_eq_map_of_ok _
    (fun r => setRow r dst (Value.str (g (rowStr r src)))) _ ?_]
  · rfl
  · intro r hr
    rcases hstr r hr with ⟨s, hs⟩
    simp [hs, rowStr]

theorem applyCol_err (fr : Frame) (src dst : String) (g : String → String)
    (hsrc : src ∉ fr.cols) :
    applyCol fr src dst g = Except.error ("KeyError: " ++ src) := by
  unfold applyCol
  rw [if_neg (by simpa using hsrc)]

theorem enrichClassify_ok (fr : Frame)
    (hp : "protocol" ∈ fr.cols) (hc : "chain" ∈ fr.cols) (ha : "asset" ∈ fr.cols)
    (hps : ∀ r ∈ fr.rows, ∃ s, rowGet r "protocol" = Value.str s)
    (hcs : ∀ r ∈ fr.rows, ∃ s, rowGet r "chain" = Value.str s)
    (has2 : ∀ r ∈ fr.rows, ∃ s, rowGet r "asset" = Value.str s) :
    enrichClassify fr = Except.ok
      ⟨addColName (addColName (addColName fr.cols "protocol_tier")
          "chain_type") "stable_type",
       fr.rows.map (fun r =>
         setRow (setRow (setRow r "protocol_tier"
             (Value.str (classify_protocol_tier (rowStr r "protocol"))))
           "chain_type" (Value.str (classify_chain_type (rowStr r "chain"))))
           "stable_type"
           (Value.str (classify_stablecoin_type (rowStr r "asset"))))⟩ := by
  unfold enrichClassify
  rw [applyCol_ok fr _ _ _ hp hps]
  show (do
    let b ← applyCol ⟨addColName fr.cols "protocol_tier", _⟩ "chain" "chain_type"
      classify_chain_type
    applyCol b "asset" "stable_type" classify_stablecoin_type) = _
  rw [applyCol_ok _ _ _ _ ((mem_addColName _ _ _).2 (Or.inl hc)) ?_]
  · show applyCol ⟨_, _⟩ "asset" "stable_type" classify_stablecoin_type = _
    rw [applyCol_ok _ _ _ _
      ((mem_addColName _ _ _).2 (Or.inl ((mem_addColName _ _ _).2 (Or.inl ha)))) ?_]
    · congr 2
      show ((fr.rows.map _).map _).map _ = fr.rows.map _
      rw [List.map_map, List.map_map]
      refine List.map_congr_left ?_
      intro r hr
      simp only [Function.comp]
      have e1 : rowStr (setRow r "protocol_tier"
          (Value.str (classify_protocol_tier (rowStr r "protocol"))))
          "chain" = rowStr r "chain" := by
        rw [rowStr, rowGet_setRow_ne _ _ _ _ (by decide), rowStr]
      have e2 : rowStr (setRow (setRow r "protocol_tier"
          (Value.str (classify_protocol_tier (rowStr r "protocol"))))
          "chain_type" (Value.str (classify_chain_type (rowStr r "chain"))))
          "asset" = rowStr r "asset" := by
        rw [rowStr, rowGet_setRow_ne _ _ _ _ (by decide),
          rowGet_setRow_ne _ _ _ _ (by decide), rowStr]
      rw [e1, e2]
    · intro r2 hr2
      simp only [List.mem_map] at hr2
      rcases hr2 with ⟨r1, hr1, rfl⟩
      rcases hr1 with ⟨r, hr, rfl⟩
      rw [rowGet_setRow_ne _ _ _ _ (by decide),
        rowGet_setRow_ne _ _ _ _ (by decide)]
      exact has2 r hr
  · intro r2 hr2
    rcases List.mem_map.1 hr2 with ⟨r, hr, rfl⟩
    rw [rowGet_setRow_ne _ _ _ _ (by decide)]
    exact hcs r hr

theorem mem_setRow (r : Row) (k : String) (v : Value) :
    ∀ kv ∈ setRow r k v, kv = (k, v) ∨ kv ∈ r := by
  induction r with
  | nil =>
    intro kv h
    rw [setRow] at h
    exact Or.inl (List.mem_singleton.1 h)
  | cons hd tl ih =>
    intro kv h
    rw [setRow] at h
    by_cases h1 : hd.1 == k
    · simp only [h1, ite_true] at h
      rcases List.mem_cons.1 h with h2 | h2
      · exact Or.inl h2
      · exact Or.inr (List.mem_cons_of_mem _ h2)
    · have h1f : (hd.1 == k) = false := by simpa using h1
      simp only [h1f, Bool.false_eq_true, ite_false] at h
      rcases List.mem_cons.1 h with h2 | h2
      · exact Or.inr (h2 ▸ List.mem_cons_self hd tl)
      · rcases ih kv h2 with h3 | h3
        · exact Or.inl h3
        · exact Or.inr (List.mem_cons_of_mem _ h3)

theorem renameRow_id (r : Row) (h : ∀ kv ∈ r, renameCol kv.1 = kv.1) :
    r.map (fun kv => (renameCol kv.1, kv.2)) = r := by
  refine (List.map_congr_left ?_).trans (List.map_id r)
  intro kv hkv
  rw [h kv hkv, Prod.mk.eta]
  rfl

theorem enrichBase_rows (ts dateStr : String) (hour : ℚ) (fr : Frame)
    (Hkeys : ∀ r ∈ fr.rows, ∀ kv ∈ r, renameCol kv.1 = kv.1) :
    (enrichBase ts dateStr hour fr).rows = fr.rows.map (baseRowF ts dateStr hour) := by
  unfold enrichBase renameFrame setCol
  show (((fr.rows.map _).map _).map _).map _ = _
  rw [List.map_map, List.map_map, List.map_map]
  refine List.map_congr_left ?_
  intro r hr
  simp only [Function.comp]
  apply renameRow_id
  intro kv hkv
  rcases mem_setRow _ _ _ kv hkv with rfl | h2
  · exact (by decide : renameCol "collection_hour" = "collection_hour")
  rcases mem_setRow _ _ _ kv h2 with rfl | h3
  · exact (by decide : renameCol "date" = "date")
  rcases mem_setRow _ _ _ kv h3 with rfl | h4
  · exact (by decide : renameCol "timestamp" = "timestamp")
  · exact Hkeys r hr kv h4

theorem enrichBase_cols (ts dateStr : String) (hour : ℚ) (fr : Frame)
    (Hcols : ∀ c ∈ fr.cols, renameCol c = c) :
    (enrichBase ts dateStr hour fr).cols =
      addColName (addColName (addColName fr.cols "timestamp") "date")
        "collection_hour" := by
  unfold enrichBase renameFrame setCol
  apply map_renameCol_id
  intro c hc
  rcases (mem_addColName _ _ _).1 hc with hc2 | rfl
  · rcases (mem_addColName _ _ _).1 hc2 with hc3 | rfl
    · rcases (mem_addColName _ _ _).1 hc3 with hc4 | rfl
      · exact Hcols c hc4
      · decide
    · decide
  · decide

theorem enrichVol_of_guard_false (fr : Frame)
    (h : (fr.cols.contains "apy_total" && fr.cols.contains "apy_30d_avg") = false) :
    enrichVol fr = fr := by
  unfold enrichVol
  simp only [h, Bool.false_eq_true, if_false]

theorem enrichVol_of_guard_true (fr : Frame)
    (h : (fr.cols.contains "apy_total" && fr.cols.contains "apy_30d_avg") = true) :
    enrichVol fr = setCol fr "apy_volatility"
      (fun r => vAbs (vSub (rowGet r "apy_30d_avg") (rowGet r "apy_total"))) := by
  unfold enrichVol
  rw [if_pos h]

theorem enrichTvl_of_guard_false (fr : Frame)
    (h : fr.cols.contains "tvl_usd" = false) :
    enrichTvl fr = fr := by
  unfold enrichTvl
  simp only [h, Bool.false_eq_true, if_false]

theorem enrichTvl_of_guard_true (fr : Frame)
    (h : fr.cols.contains "tvl_usd" = true) :
    enrichTvl fr =
      setCol
        (setCol
          (setCol fr "tvl_millions"
            (fun r => vDiv (rowGet r "tvl_usd") (Value.num 1000000)))
          "tvl_log" (fun r => Value.vlog (vFillZero (rowGet r "tvl_usd"))))
        "tvl_category" (fun r => vTvlCategory (rowGet r "tvl_usd")) := by
  unfold enrichTvl
  rw [if_pos h]

theorem enrichSharpe_of_guard_false (fr : Frame)
    (h : (fr.cols.contains "apy_total" && fr.cols.contains "apy_volatility") = false) :
    enrichSharpe fr = fr := by
  unfold enrichSharpe
  simp only [h, Bool.false_eq_true, if_false]

theorem enrichSharpe_of_guard_true (fr : Frame)
    (h : (fr.cols.contains "apy_total" && fr.cols.contains "apy_volatility") = true) :
    enrichSharpe fr = setCol fr "sharpe_proxy"
      (fun r => vDiv (rowGet r "apy_total")
        (vAdd (rowGet r "apy_volatility") (Value.num (1/2)))) := by
  unfold enrichSharpe
  rw [if_pos h]

/-- C2 counterexample: the claim asserts left-closed/right-open buckets,
under which `tvl_usd = 1e6` would get `$1-10M` and `tvl_usd = 0` would get
`<$1M`.  `pd.cut` with its default `right=True` instead yields `<$1M` at
`1e6` and no category (`NaN`) at `0`, as `enrich_data` shows on this
concrete two-row frame. -/
theorem C2_counterexample :
    (match enrich_data "t" "2024-01-01" 0
        ⟨["protocol", "chain", "asset", "tvl_usd"],
         [[("protocol", Value.str "aave-v3"), ("chain", Value.str "Ethereum"),
           ("asset", Value.str "USDC"), ("tvl_usd", Value.num 1000000)],
          [("protocol", Value.str "aave-v3"), ("chain", Value.str "Ethereum"),
           ("asset", Value.str "USDC"), ("tvl_usd", Value.num 0)]]⟩ with
     | Except.ok fr => fr.rows.map (fun r => rowGet r "tvl_category")
     | Except.error e => [Value.str e]) =
      [Value.str "<$1M", Value.null] := by decide

/-- C2 (amended): the `tvl_category` buckets computed by `enrich_data`
(via `vTvlCategory`) are left-open/right-closed: `(0,1e6] → <$1M`,
`(1e6,10e6] → $1-10M`, `(10e6,100e6] → $10-100M`, `(100e6,∞) → >$100M`;
a `tvl_usd ≤ 0` receives no category. -/
theorem C2_tvl_category_buckets (q : ℚ) :
    (q ≤ 0 → vTvlCategory (Value.num q) = Value.null)
    ∧ (0 < q → q ≤ 1000000 → vTvlCategory (Value.num q) = Value.str "<$1M")
    ∧ (1000000 < q → q ≤ 10000000 →
        vTvlCategory (Value.num q) = Value.str "$1-10M")
    ∧ (10000000 < q → q ≤ 100000000 →
        vTvlCategory (Value.num q) = Value.str "$10-100M")
    ∧ (100000000 < q → vTvlCategory (Value.num q) = Value.str ">$100M") := by
  refine ⟨?_, ?_, ?_, ?_, ?_⟩
  · intro h
    simp [vTvlCategory, tvl_category_label, h]
  · intro h1 h2
    simp [vTvlCategory, tvl_category_label, not_le.2 h1, h2]
  · intro h1 h2
    have h0 : ¬ q ≤ 0 := not_le.2 (lt_trans (by norm_num) h1)
    simp [vTvlCategory, tvl_category_label, h0, not_le.2 h1, h2]
  · intro h1 h2
    have h0 : ¬ q ≤ 0 := not_le.2 (lt_trans (by norm_num) h1)
    have hm : ¬ q ≤ 1000000 := not_le.2 (lt_trans (by norm_num) h1)
    simp [vTvlCategory, tvl_category_label, h0, hm, not_le.2 h1, h2]
  · intro h1
    have h0 : ¬ q ≤ 0 := not_le.2 (lt_trans (by norm_num) h1)
    have hm : ¬ q ≤ 1000000 := not_le.2 (lt_trans (by norm_num) h1)
    have hm2 : ¬ q ≤ 10000000 := not_le.2 (lt_trans (by norm_num) h1)
    simp [vTvlCategory, tvl_category_label, h0, hm, hm2, not_le.2 h1]

/-- Witness for C2 (amended) at the boundary inputs `1e6` and `0`. -/
theorem C2_tvl_category_buckets_witness :
    vTvlCategory (Value.num 1000000) = Value.str "<$1M"
    ∧ vTvlCategory (Value.num 0) = Value.null :=
  ⟨(C2_tvl_category_buckets 1000000).2.1 (by norm_num) (by norm_num),
   (C2_tvl_category_buckets 0).1 (by norm_num)⟩

/-- C3 counterexample: `enrich_data` is not total over frames missing
source columns: on a non-empty frame without a `protocol` column,
`df['protocol'].apply(...)` raises `KeyError` instead of silently
omitting `protocol_tier`. -/
theorem C3_counterexample :
    (match enrich_data "t" "2024-01-01" 0
        ⟨["chain", "asset"],
         [[("chain", Value.str "Ethereum"), ("asset", Value.str "USDC")]]⟩ with
     | Except.ok _ => "no error"
     | Except.error e => e) = "KeyError: protocol" := by decide

/-- C5: on every frame that carries both an `apy_total` and an
`apy_volatility` column (columns untouched by the renaming, with the
classification inputs present as strings, and no `apy_30d_avg` column
that would recompute the volatility), `enrich_data` sets each record's
`sharpe_proxy` to `apy_total / (apy_volatility + 0.5)`. -/
theorem C5_sharpe_proxy (ts dateStr : String) (hour : ℚ) (fr : Frame)
    (Hne : fr.rows ≠ [])
    (Hcols : ∀ c ∈ fr.cols, renameCol c = c)
    (Hkeys : ∀ r ∈ fr.rows, ∀ kv ∈ r, renameCol kv.1 = kv.1)
    (HA : "apy_total" ∈ fr.cols)
    (HV : "apy_volatility" ∈ fr.cols)
    (HB : "apy_30d_avg" ∉ fr.cols)
    (Hp : "protocol" ∈ fr.cols) (Hc : "chain" ∈ fr.cols) (Ha : "asset" ∈ fr.cols)
    (HpS : ∀ r ∈ fr.rows, ∃ s, rowGet r "protocol" = Value.str s)
    (HcS : ∀ r ∈ fr.rows, ∃ s, rowGet r "chain" = Value.str s)
    (HaS : ∀ r ∈ fr.rows, ∃ s, rowGet r "asset" = Value.str s) :
    ∃ fr2, enrich_data ts dateStr hour fr = Except.ok fr2
      ∧ fr2.rows.map (fun r => rowGet r "sharpe_proxy") =
        fr.rows.map (fun r => vDiv (rowGet r "apy_total")
          (vAdd (rowGet r "apy_volatility") (Value.num (1/2)))) := by
  set B := enrichBase ts dateStr hour fr with hB
  have hBc := enrichBase_cols ts dateStr hour fr Hcols
  have hBr := enrichBase_rows ts dateStr hour fr Hkeys
  have hBmem : ∀ c, c ∈ B.cols ↔
      (c ∈ fr.cols ∨ c = "timestamp" ∨ c = "date" ∨ c = "collection_hour") := by
    intro c
    rw [hBc]
    simp only [mem_addColName]
    tauto
  -- step 1: apy_volatility is not recomputed
  have hnb : "apy_30d_avg" ∉ B.cols := by
    rw [hBmem]
    simp [HB]
  have hg1 : (B.cols.contains "apy_total" && B.cols.contains "apy_30d_avg") = false := by
    have hx : B.cols.contains "apy_30d_avg" = false := by simpa using hnb
    rw [hx, Bool.and_false]
  have hV1 : enrichVol B = B := enrichVol_of_guard_false B hg1
  -- step 2: the TVL block preserves the APY and classification columns
  have hstage2 : ∃ tf : Row → Row,
      (enrichTvl B).rows = B.rows.map tf
      ∧ (∀ c, c ∈ B.cols → c ∈ (enrichTvl B).cols)
      ∧ (∀ r k, k ≠ "tvl_millions" → k ≠ "tvl_log" → k ≠ "tvl_category" →
          rowGet (tf r) k = rowGet r k) := by
    by_cases hT : B.cols.contains "tvl_usd" = true
    · rw [enrichTvl_of_guard_true B hT]
      refine ⟨(fun r => setRow r "tvl_category" (vTvlCategory (rowGet r "tvl_usd"))) ∘
          (fun r => setRow r "tvl_log" (Value.vlog (vFillZero (rowGet r "tvl_usd")))) ∘
          (fun r => setRow r "tvl_millions"
            (vDiv (rowGet r "tvl_usd") (Value.num 1000000))), ?_, ?_, ?_⟩
      · show ((B.rows.map _).map _).map _ = B.rows.map _
        rw [List.map_map, List.map_map]
        rfl
      · intro c hc
        simp only [setCol, mem_addColName]
        exact Or.inl (Or.inl (Or.inl hc))
      · intro r k h1 h2 h3
        simp only [Function.comp]
        rw [rowGet_setRow_ne _ _ _ _ (Ne.symm h3),
          rowGet_setRow_ne _ _ _ _ (Ne.symm h2),
          rowGet_setRow_ne _ _ _ _ (Ne.symm h1)]
    · rw [enrichTvl_of_guard_false B (by simpa using hT)]
      exact ⟨id, (List.map_id B.rows).symm, fun c hc => hc, fun r k _ _ _ => rfl⟩
  obtain ⟨tf, hTrows, hTmono, hTpres⟩ := hstage2
  set T := enrichTvl B with hTdef
  -- step 3: the sharpe guard holds
  have hAT : "apy_total" ∈ T.cols := hTmono _ ((hBmem _).2 (Or.inl HA))
  have hVT : "apy_volatility" ∈ T.cols := hTmono _ ((hBmem _).2 (Or.inl HV))
  have hg3 : (T.cols.contains "apy_total" && T.cols.contains "apy_volatility") = true := by
    have hx1 : T.cols.contains "apy_total" = true := by simpa using hAT
    have hx2 : T.cols.contains "apy_volatility" = true := by simpa using hVT
    rw [hx1, hx2]
    rfl
  have hM := enrichSharpe_of_guard_true T hg3
  set sfun : Row → Row := fun r => setRow r "sharpe_proxy"
    (vDiv (rowGet r "apy_total") (vAdd (rowGet r "apy_volatility") (Value.num (1/2))))
    with hsfun
  have hMrows : (enrichSharpe T).rows = fr.rows.map (fun r => sfun (tf (baseRowF ts dateStr hour r))) := by
    rw [hM]
    show T.rows.map _ = _
    rw [hTrows, hBr, List.map_map, List.map_map]
    rfl
  have hMcols : ∀ c, c ∈ T.cols → c ∈ (enrichSharpe T).cols := by
    intro c hc
    rw [hM]
    simp only [setCol, mem_addColName]
    exact Or.inl hc
  set M := enrichSharpe T with hMdef
  -- step 4: the classifiers succeed
  have hpM : "protocol" ∈ M.cols := hMcols _ (hTmono _ ((hBmem _).2 (Or.inl Hp)))
  have hcM : "chain" ∈ M.cols := hMcols _ (hTmono _ ((hBmem _).2 (Or.inl Hc)))
  have haM : "asset" ∈ M.cols := hMcols _ (hTmono _ ((hBmem _).2 (Or.inl Ha)))
  have hrowPres : ∀ r (k : String), k ≠ "sharpe_proxy" → k ≠ "tvl_millions" →
      k ≠ "tvl_log" → k ≠ "tvl_category" → k ≠ "timestamp" → k ≠ "date" →
      k ≠ "collection_hour" →
      rowGet (sfun (tf (baseRowF ts dateStr hour r))) k = rowGet r k := by
    intro r k h1 h2 h3 h4 h5 h6 h7
    rw [hsfun]
    rw [rowGet_setRow_ne _ _ _ _ (Ne.symm h1), hTpres _ _ h2 h3 h4, baseRowF,
      rowGet_setRow_ne _ _ _ _ (Ne.symm h7), rowGet_setRow_ne _ _ _ _ (Ne.symm h6),
      rowGet_setRow_ne _ _ _ _ (Ne.symm h5)]
  have hMstr : ∀ (k : String), k ≠ "sharpe_proxy" → k ≠ "tvl_millions" →
      k ≠ "tvl_log" → k ≠ "tvl_category" → k ≠ "timestamp" → k ≠ "date" →
      k ≠ "collection_hour" →
      (∀ r ∈ fr.rows, ∃ s, rowGet r k = Value.str s) →
      (∀ r2 ∈ M.rows, ∃ s, rowGet r2 k = Value.str s) := by
    intro k h1 h2 h3 h4 h5 h6 h7 hsrc r2 hr2
    rw [hMdef, hMrows] at hr2
    rcases List.mem_map.1 hr2 with ⟨r, hr, rfl⟩
    rw [hrowPres r k h1 h2 h3 h4 h5 h6 h7]
    exact hsrc r hr
  have hclassify := enrichClassify_ok M hpM hcM haM
    (hMstr _ (by decide) (by decide) (by decide) (by decide) (by decide) (by decide) (by decide) HpS)
    (hMstr _ (by decide) (by decide) (by decide) (by decide) (by decide) (by decide) (by decide) HcS)
    (hMstr _ (by decide) (by decide) (by decide) (by decide) (by decide) (by decide) (by decide) HaS)
  -- assemble
  refine ⟨⟨addColName (addColName (addColName M.cols "protocol_tier")
      "chain_type") "stable_type",
    M.rows.map (fun r =>
      setRow (setRow (setRow r "protocol_tier"
          (Value.str (classify_protocol_tier (rowStr r "protocol"))))
        "chain_type" (Value.str (classify_chain_type (rowStr r "chain"))))
        "stable_type"
        (Value.str (classify_stablecoin_type (rowStr r "asset"))))⟩, ?_, ?_⟩
  · rw [enrich_data, if_neg (by simpa [List.isEmpty_iff] using Hne)]
    show enrichClassify (enrichMetrics B) = _
    rw [enrichMetrics, hV1, ← hTdef, ← hMdef, hclassify]
  · show (M.rows.map _).map _ = _
    rw [hMrows, List.map_map, List.map_map]
    refine List.map_congr_left ?_
    intro r hr
    simp only [Function.comp]
    rw [rowGet_setRow_ne _ _ _ _ (by decide), rowGet_setRow_ne _ _ _ _ (by decide),
      rowGet_setRow_ne _ _ _ _ (by decide)]
    rw [hsfun, rowGet_setRow_self]
    rw [hTpres _ _ (by decide) (by decide) (by decide),
      hTpres _ _ (by decide) (by decide) (by decide)]
    rw [baseRowF, rowGet_setRow_ne _ _ _ _ (by decide),
      rowGet_setRow_ne _ _ _ _ (by decide), rowGet_setRow_ne _ _ _ _ (by decide),
      rowGet_setRow_ne _ _ _ _ (by decide), rowGet_setRow_ne _ _ _ _ (by decide),
      rowGet_setRow_ne _ _ _ _ (by decide)]

/-- Witness for C5: a concrete record with `apy_total = 10` and
`apy_volatility = 2` gets `sharpe_proxy = 10 / 2.5 = 4` exactly. -/
theorem C5_sharpe_proxy_witness :
    ∃ fr2, enrich_data "t" "2024-01-01" 0
        ⟨["protocol", "chain", "asset", "apy_total", "apy_volatility"],
         [[("protocol", Value.str "aave-v3"), ("chain", Value.str "Ethereum"),
           ("asset", Value.str "USDC"), ("apy_total", Value.num 10),
           ("apy_volatility", Value.num 2)]]⟩ = Except.ok fr2
      ∧ fr2.rows.map (fun r => rowGet r "sharpe_proxy") = [Value.num 4] := by
  obtain ⟨fr2, h1, h2⟩ := C5_sharpe_proxy "t" "2024-01-01" 0
    ⟨["protocol", "chain", "asset", "apy_total", "apy_volatility"],
     [[("protocol", Value.str "aave-v3"), ("chain", Value.str "Ethereum"),
       ("asset", Value.str "USDC"), ("apy_total", Value.num 10),
       ("apy_volatility", Value.num 2)]]⟩
    (by decide) (by decide)
    (by intro r hr kv hkv
        rw [List.mem_singleton.1 hr] at hkv
        simp only [List.mem_cons, List.not_mem_nil, or_false] at hkv
        rcases hkv with rfl | rfl | rfl | rfl | rfl <;> decide)
    (by decide) (by decide) (by decide) (by decide) (by decide) (by decide)
    (by intro r hr
        rw [List.mem_singleton.1 hr]
        exact ⟨"aave-v3", by decide⟩)
    (by intro r hr
        rw [List.mem_singleton.1 hr]
        exact ⟨"Ethereum", by decide⟩)
    (by intro r hr
        rw [List.mem_singleton.1 hr]
        exact ⟨"USDC", by decide⟩)
  refine ⟨fr2, h1, ?_⟩
  rw [h2]
  have e1 : rowGet [("protocol", Value.str "aave-v3"), ("chain", Value.str "Ethereum"),
      ("asset", Value.str "USDC"), ("apy_total", Value.num 10),
      ("apy_volatility", Value.num 2)] "apy_total" = Value.num 10 := by decide
  have e2 : rowGet [("protocol", Value.str "aave-v3"), ("chain", Value.str "Ethereum"),
      ("asset", Value.str "USDC"), ("apy_total", Value.num 10),
      ("apy_volatility", Value.num 2)] "apy_volatility" = Value.num 2 := by decide
  simp only [List.map_cons, List.map_nil, e1, e2, vAdd, vDiv]
  norm_num

set_option maxHeartbeats 1000000 in
/-- C3 (amended): the metrics `apy_volatility`, `tvl_millions`, `tvl_log`,
`tvl_category` and `sharpe_proxy` are each computed exactly when their
input columns exist and are silently omitted otherwise, and `enrich_data`
is total over frames missing any subset of those inputs — but the three
classification columns are applied unconditionally: they always appear on
success, and instead of omitting the metric, a non-empty frame lacking
`protocol` makes `enrich_data` raise `KeyError: protocol`; one lacking
`chain` (with `protocol` present as strings) raises `KeyError: chain`;
and one lacking `asset` (with `protocol` and `chain` present as strings)
raises `KeyError: asset`. -/
theorem C3_enrich_optionality :
    (∀ (ts dateStr : String) (hour : ℚ) (fr : Frame),
      fr.rows ≠ [] →
      (∀ c ∈ fr.cols, renameCol c = c) →
      (∀ r ∈ fr.rows, ∀ kv ∈ r, renameCol kv.1 = kv.1) →
      "protocol" ∈ fr.cols → "chain" ∈ fr.cols → "asset" ∈ fr.cols →
      (∀ r ∈ fr.rows, ∃ s, rowGet r "protocol" = Value.str s) →
      (∀ r ∈ fr.rows, ∃ s, rowGet r "chain" = Value.str s) →
      (∀ r ∈ fr.rows, ∃ s, rowGet r "asset" = Value.str s) →
      "apy_volatility" ∉ fr.cols → "tvl_millions" ∉ fr.cols →
      "tvl_log" ∉ fr.cols → "tvl_category" ∉ fr.cols →
      "sharpe_proxy" ∉ fr.cols →
      ∃ fr2, enrich_data ts dateStr hour fr = Except.ok fr2
        ∧ ("apy_volatility" ∈ fr2.cols ↔
            ("apy_total" ∈ fr.cols ∧ "apy_30d_avg" ∈ fr.cols))
        ∧ ("tvl_millions" ∈ fr2.cols ↔ "tvl_usd" ∈ fr.cols)
        ∧ ("tvl_log" ∈ fr2.cols ↔ "tvl_usd" ∈ fr.cols)
        ∧ ("tvl_category" ∈ fr2.cols ↔ "tvl_usd" ∈ fr.cols)
        ∧ ("sharpe_proxy" ∈ fr2.cols ↔
            ("apy_total" ∈ fr.cols ∧ "apy_30d_avg" ∈ fr.cols))
        ∧ "protocol_tier" ∈ fr2.cols ∧ "chain_type" ∈ fr2.cols
        ∧ "stable_type" ∈ fr2.cols)
    ∧ (∀ (ts dateStr : String) (hour : ℚ) (fr : Frame),
      fr.rows ≠ [] →
      "protocol" ∉ (enrichMetrics (enrichBase ts dateStr hour fr)).cols →
      enrich_data ts dateStr hour fr = Except.error "KeyError: protocol")
    ∧ (∀ (ts dateStr : String) (hour : ℚ) (fr : Frame),
      fr.rows ≠ [] →
      "protocol" ∈ (enrichMetrics (enrichBase ts dateStr hour fr)).cols →
      (∀ r ∈ (enrichMetrics (enrichBase ts dateStr hour fr)).rows,
        ∃ s, rowGet r "protocol" = Value.str s) →
      "chain" ∉ (enrichMetrics (enrichBase ts dateStr hour fr)).cols →
      enrich_data ts dateStr hour fr = Except.error "KeyError: chain")
    ∧ (∀ (ts dateStr : String) (hour : ℚ) (fr : Frame),
      fr.rows ≠ [] →
      "protocol" ∈ (enrichMetrics (enrichBase ts dateStr hour fr)).cols →
      (∀ r ∈ (enrichMetrics (enrichBase ts dateStr hour fr)).rows,
        ∃ s, rowGet r "protocol" = Value.str s) →
      "chain" ∈ (enrichMetrics (enrichBase ts dateStr hour fr)).cols →
      (∀ r ∈ (enrichMetrics (enrichBase ts dateStr hour fr)).rows,
        ∃ s, rowGet r "chain" = Value.str s) →
      "asset" ∉ (enrichMetrics (enrichBase ts dateStr hour fr)).cols →
      enrich_data ts dateStr hour fr = Except.error "KeyError: asset") := by
  refine ⟨?_, ?_, ?_, ?_⟩
  · intro ts dateStr hour fr Hne Hcols Hkeys Hp Hc Ha HpS HcS HaS Hfv Hfm Hfl Hfc Hfs
    set B := enrichBase ts dateStr hour fr with hB
    clear_value B
    have hBc := enrichBase_cols ts dateStr hour fr Hcols
    have hBr := enrichBase_rows ts dateStr hour fr Hkeys
    rw [← hB] at hBc hBr
    have hBmem : ∀ c, c ∈ B.cols ↔
        (c ∈ fr.cols ∨ c = "timestamp" ∨ c = "date" ∨ c = "collection_hour") := by
      intro c
      rw [hBc]
      simp only [mem_addColName]
      tauto
    -- stage 1
    have hstage1 : ∃ vf : Row → Row,
        (enrichVol B).rows = B.rows.map vf
        ∧ (∀ c, c ∈ (enrichVol B).cols ↔
            (c ∈ B.cols ∨ (("apy_total" ∈ fr.cols ∧ "apy_30d_avg" ∈ fr.cols)
              ∧ c = "apy_volatility")))
        ∧ (∀ r k, k ≠ "apy_volatility" → rowGet (vf r) k = rowGet r k) := by
      by_cases hg : "apy_total" ∈ fr.cols ∧ "apy_30d_avg" ∈ fr.cols
      · have hbt : B.cols.contains "apy_total" = true := by
          simpa using (hBmem _).2 (Or.inl hg.1)
        have hbb : B.cols.contains "apy_30d_avg" = true := by
          simpa using (hBmem _).2 (Or.inl hg.2)
        rw [enrichVol_of_guard_true B (by rw [hbt, hbb]; rfl)]
        refine ⟨_, rfl, ?_, ?_⟩
        · intro c
          simp only [setCol, mem_addColName, hg]
          tauto
        · intro r k hk
          exact rowGet_setRow_ne _ _ _ _ (Ne.symm hk)
      · have hgb : (B.cols.contains "apy_total" && B.cols.contains "apy_30d_avg") = false := by
          by_cases h1 : "apy_total" ∈ fr.cols
          · have h2 : "apy_30d_avg" ∉ B.cols := by
              rw [hBmem]
              simp
              intro h3
              exact hg ⟨h1, h3⟩
            have : B.cols.contains "apy_30d_avg" = false := by simpa using h2
            rw [this, Bool.and_false]
          · have h2 : "apy_total" ∉ B.cols := by
              rw [hBmem]
              simp [h1]
            have : B.cols.contains "apy_total" = false := by simpa using h2
            rw [this, Bool.false_and]
        rw [enrichVol_of_guard_false B hgb]
        refine ⟨id, (List.map_id B.rows).symm, ?_, fun r k _ => rfl⟩
        intro c
        simp [hg]
    obtain ⟨vf, hVrows, hVmem, hVpres⟩ := hstage1
    set V := enrichVol B with hVdef
    clear_value V
    -- stage 2
    have hstage2 : ∃ tf : Row → Row,
        (enrichTvl V).rows = V.rows.map tf
        ∧ (∀ c, c ∈ (enrichTvl V).cols ↔
            (c ∈ V.cols ∨ ("tvl_usd" ∈ fr.cols
              ∧ (c = "tvl_millions" ∨ c = "tvl_log" ∨ c = "tvl_category"))))
        ∧ (∀ r k, k ≠ "tvl_millions" → k ≠ "tvl_log" → k ≠ "tvl_category" →
            rowGet (tf r) k = rowGet r k) := by
      have hTV : "tvl_usd" ∈ V.cols ↔ "tvl_usd" ∈ fr.cols := by
        rw [hVmem]
        rw [hBmem]
        simp
      by_cases hT : "tvl_usd" ∈ fr.cols
      · have hbt : V.cols.contains "tvl_usd" = true := by
          simp only [List.contains_iff_exists_mem_beq]
          exact ⟨_, hTV.2 hT, by simp⟩
        rw [enrichTvl_of_guard_true V hbt]
        refine ⟨(fun r => setRow r "tvl_category" (vTvlCategory (rowGet r "tvl_usd"))) ∘
            (fun r => setRow r "tvl_log" (Value.vlog (vFillZero (rowGet r "tvl_usd")))) ∘
            (fun r => setRow r "tvl_millions"
              (vDiv (rowGet r "tvl_usd") (Value.num 1000000))), ?_, ?_, ?_⟩
        · show ((V.rows.map _).map _).map _ = V.rows.map _
          rw [List.map_map, List.map_map]
          rfl
        · intro c
          simp only [setCol, mem_addColName, hT]
          tauto
        · intro r k h1 h2 h3
          simp only [Function.comp]
          rw [rowGet_setRow_ne _ _ _ _ (Ne.symm h3),
            rowGet_setRow_ne _ _ _ _ (Ne.symm h2),
            rowGet_setRow_ne _ _ _ _ (Ne.symm h1)]
      · have hbt : V.cols.contains "tvl_usd" = false := by
          have : "tvl_usd" ∉ V.cols := fun h => hT (hTV.1 h)
          simpa using this
        rw [enrichTvl_of_guard_false V hbt]
        refine ⟨id, (List.map_id V.rows).symm, ?_, fun r k _ _ _ => rfl⟩
        intro c
        simp [hT]
    obtain ⟨tf, hTrows, hTmem, hTpres⟩ := hstage2
    set T := enrichTvl V with hTdef
    clear_value T
    -- stage 3
    have hATf : "apy_total" ∈ T.cols ↔ "apy_total" ∈ fr.cols := by
      rw [hTmem, hVmem, hBmem]
      simp
    have hAVf : "apy_volatility" ∈ T.cols ↔
        ("apy_total" ∈ fr.cols ∧ "apy_30d_avg" ∈ fr.cols) := by
      rw [hTmem, hVmem, hBmem]
      simp [Hfv]
    have hstage3 : ∃ sf : Row → Row,
        (enrichSharpe T).rows = T.rows.map sf
        ∧ (∀ c, c ∈ (enrichSharpe T).cols ↔
            (c ∈ T.cols ∨ (("apy_total" ∈ fr.cols ∧ "apy_30d_avg" ∈ fr.cols)
              ∧ c = "sharpe_proxy")))
        ∧ (∀ r k, k ≠ "sharpe_proxy" → rowGet (sf r) k = rowGet r k) := by
      by_cases hg : "apy_total" ∈ fr.cols ∧ "apy_30d_avg" ∈ fr.cols
      · have hb1 : T.cols.contains "apy_total" = true := by
          simpa using hATf.2 hg.1
        have hb2 : T.cols.contains "apy_volatility" = true := by
          simpa using hAVf.2 hg
        rw [enrichSharpe_of_guard_true T (by rw [hb1, hb2]; rfl)]
        refine ⟨_, rfl, ?_, ?_⟩
        · intro c
          simp only [setCol, mem_addColName, hg]
          tauto
        · intro r k hk
          exact rowGet_setRow_ne _ _ _ _ (Ne.symm hk)
      · have hb2 : T.cols.contains "apy_volatility" = false := by
          have : "apy_volatility" ∉ T.cols := fun h => hg (hAVf.1 h)
          simpa using this
        rw [enrichSharpe_of_guard_false T (by rw [hb2, Bool.and_false])]
        refine ⟨id, (List.map_id T.rows).symm, ?_, fun r k _ => rfl⟩
        intro c
        simp [hg]
    obtain ⟨sf, hSrows, hSmem, hSpres⟩ := hstage3
    set Sh := enrichSharpe T with hSdef
    clear_value Sh
    -- classification
    have hpS2 : "protocol" ∈ Sh.cols := by
      rw [hSmem, hTmem, hVmem, hBmem]
      exact Or.inl (Or.inl (Or.inl (Or.inl Hp)))
    have hcS2 : "chain" ∈ Sh.cols := by
      rw [hSmem, hTmem, hVmem, hBmem]
      exact Or.inl (Or.inl (Or.inl (Or.inl Hc)))
    have haS2 : "asset" ∈ Sh.cols := by
      rw [hSmem, hTmem, hVmem, hBmem]
      exact Or.inl (Or.inl (Or.inl (Or.inl Ha)))
    have hShComp : Sh.rows = fr.rows.map (fun r => sf (tf (vf (baseRowF ts dateStr hour r)))) := by
      rw [hSrows, hTrows, hVrows, hBr, List.map_map, List.map_map, List.map_map]
      rfl
    have hpres : ∀ r (k : String), k ≠ "sharpe_proxy" → k ≠ "tvl_millions" →
        k ≠ "tvl_log" → k ≠ "tvl_category" → k ≠ "apy_volatility" →
        k ≠ "timestamp" → k ≠ "date" → k ≠ "collection_hour" →
        rowGet (sf (tf (vf (baseRowF ts dateStr hour r)))) k = rowGet r k := by
      intro r k h1 h2 h3 h4 h5 h6 h7 h8
      rw [hSpres _ _ h1, hTpres _ _ h2 h3 h4, hVpres _ _ h5, baseRowF,
        rowGet_setRow_ne _ _ _ _ (Ne.symm h8), rowGet_setRow_ne _ _ _ _ (Ne.symm h7),
        rowGet_setRow_ne _ _ _ _ (Ne.symm h6)]
    have hstr : ∀ (k : String), k ≠ "sharpe_proxy" → k ≠ "tvl_millions" →
        k ≠ "tvl_log" → k ≠ "tvl_category" → k ≠ "apy_volatility" →
        k ≠ "timestamp" → k ≠ "date" → k ≠ "collection_hour" →
        (∀ r ∈ fr.rows, ∃ s, rowGet r k = Value.str s) →
        (∀ r2 ∈ Sh.rows, ∃ s, rowGet r2 k = Value.str s) := by
      intro k h1 h2 h3 h4 h5 h6 h7 h8 hsrc r2 hr2
      rw [hShComp] at hr2
      rcases List.mem_map.1 hr2 with ⟨r, hr, rfl⟩
      rw [hpres r k h1 h2 h3 h4 h5 h6 h7 h8]
      exact hsrc r hr
    have hclassify := enrichClassify_ok Sh hpS2 hcS2 haS2
      (hstr _ (by decide) (by decide) (by decide) (by decide) (by decide)
        (by decide) (by decide) (by decide) HpS)
      (hstr _ (by decide) (by decide) (by decide) (by decide) (by decide)
        (by decide) (by decide) (by decide) HcS)
      (hstr _ (by decide) (by decide) (by decide) (by decide) (by decide)
        (by decide) (by decide) (by decide) HaS)
    refine ⟨⟨addColName (addColName (addColName Sh.cols "protocol_tier")
        "chain_type") "stable_type",
      Sh.rows.map (fun r =>
        setRow (setRow (setRow r "protocol_tier"
            (Value.str (classify_protocol_tier (rowStr r "protocol"))))
          "chain_type" (Value.str (classify_chain_type (rowStr r "chain"))))
          "stable_type"
          (Value.str (classify_stablecoin_type (rowStr r "asset"))))⟩, ?_, ?_⟩
    · rw [enrich_data, if_neg (by simpa [List.isEmpty_iff] using Hne)]
      rw [enrichMetrics, ← hB, ← hVdef, ← hTdef, ← hSdef, hclassify]
    · have hfin : ∀ c, c ∈ (addColName (addColName (addColName Sh.cols
          "protocol_tier") "chain_type") "stable_type") ↔
          (c ∈ Sh.cols ∨ c = "protocol_tier" ∨ c = "chain_type" ∨ c = "stable_type") := by
        intro c
        simp only [mem_addColName]
        tauto
      refine ⟨?_, ?_, ?_, ?_, ?_, ?_, ?_, ?_⟩
      · show "apy_volatility" ∈ _ ↔ _
        rw [hfin, hSmem, hTmem, hVmem, hBmem]
        simp [Hfv]
      · show "tvl_millions" ∈ _ ↔ _
        rw [hfin, hSmem, hTmem, hVmem, hBmem]
        simp [Hfm]
      · show "tvl_log" ∈ _ ↔ _
        rw [hfin, hSmem, hTmem, hVmem, hBmem]
        simp [Hfl]
      · show "tvl_category" ∈ _ ↔ _
        rw [hfin, hSmem, hTmem, hVmem, hBmem]
        simp [Hfc]
      · show "sharpe_proxy" ∈ _ ↔ _
        rw [hfin, hSmem, hTmem, hVmem, hBmem]
        simp [Hfs]
      · show "protocol_tier" ∈ _
        rw [hfin]
        simp
      · show "chain_type" ∈ _
        rw [hfin]
        simp
      · show "stable_type" ∈ _
        rw [hfin]
        simp
  · intro ts dateStr hour fr Hne Hnp
    rw [enrich_data, if_neg (by simpa [List.isEmpty_iff] using Hne)]
    show enrichClassify (enrichMetrics (enrichBase ts dateStr hour fr)) = _
    unfold enrichClassify
    rw [applyCol_err _ _ _ _ Hnp]
    rfl
  · intro ts dateStr hour fr Hne Hp HpS Hnc
    set M := enrichMetrics (enrichBase ts dateStr hour fr) with hM
    clear_value M
    rw [enrich_data, if_neg (by simpa [List.isEmpty_iff] using Hne), ← hM]
    unfold enrichClassify
    rw [applyCol_ok _ _ _ _ Hp HpS]
    show (do
      let b ← applyCol ⟨addColName M.cols "protocol_tier", _⟩
        "chain" "chain_type" classify_chain_type
      applyCol b "asset" "stable_type" classify_stablecoin_type) = _
    rw [applyCol_err]
    · rfl
    · intro h
      rcases (mem_addColName _ _ _).1 h with h2 | h2
      · exact Hnc h2
      · simp at h2
  · intro ts dateStr hour fr Hne Hp HpS Hc HcS Hna
    set M := enrichMetrics (enrichBase ts dateStr hour fr) with hM
    clear_value M
    rw [enrich_data, if_neg (by simpa [List.isEmpty_iff] using Hne), ← hM]
    unfold enrichClassify
    rw [applyCol_ok _ _ _ _ Hp HpS]
    show (do
      let b ← applyCol ⟨addColName M.cols "protocol_tier", _⟩
        "chain" "chain_type" classify_chain_type
      applyCol b "asset" "stable_type" classify_stablecoin_type) = _
    rw [applyCol_ok _ _ _ _ ((mem_addColName _ _ _).2 (Or.inl Hc)) ?_]
    · show applyCol ⟨_, _⟩ "asset" "stable_type" classify_stablecoin_type = _
      rw [applyCol_err]
      · rfl
      · intro h
        rcases (mem_addColName _ _ _).1 h with h2 | h2
        · rcases (mem_addColName _ _ _).1 h2 with h3 | h3
          · exact Hna h3
          · simp at h3
        · simp at h2
    · intro r2 hr2
      rcases List.mem_map.1 hr2 with ⟨r, hr, rfl⟩
      rw [rowGet_setRow_ne _ _ _ _ (by decide)]
      exact HcS r hr

/-- Witness for C3 (amended): on a concrete frame with only the
classification inputs, `enrich_data` succeeds, omits the guarded metrics,
and still adds `protocol_tier`; and concrete frames missing the `chain`
(resp. `asset`) column raise `KeyError: chain` (resp. `KeyError: asset`). -/
theorem C3_enrich_optionality_witness :
    (∃ fr2, enrich_data "t" "2024-01-01" 0
        ⟨["protocol", "chain", "asset"],
         [[("protocol", Value.str "aave-v3"), ("chain", Value.str "Ethereum"),
           ("asset", Value.str "USDC")]]⟩ = Except.ok fr2
      ∧ "apy_volatility" ∉ fr2.cols ∧ "sharpe_proxy" ∉ fr2.cols
      ∧ "protocol_tier" ∈ fr2.cols)
    ∧ enrich_data "t" "2024-01-01" 0
        ⟨["protocol", "asset"],
         [[("protocol", Value.str "aave-v3"), ("asset", Value.str "USDC")]]⟩ =
        Except.error "KeyError: chain"
    ∧ enrich_data "t" "2024-01-01" 0
        ⟨["protocol", "chain"],
         [[("protocol", Value.str "aave-v3"), ("chain", Value.str "Ethereum")]]⟩ =
        Except.error "KeyError: asset" := by
  refine ⟨?_, ?_, ?_⟩
  · obtain ⟨fr2, h1, h2, h3, h4, h5, h6, h7, h8, h9⟩ :=
      C3_enrich_optionality.1 "t" "2024-01-01" 0
        ⟨["protocol", "chain", "asset"],
         [[("protocol", Value.str "aave-v3"), ("chain", Value.str "Ethereum"),
           ("asset", Value.str "USDC")]]⟩
        (by decide)
        (by decide)
        (by intro r hr kv hkv
            rw [List.mem_singleton.1 hr] at hkv
            simp only [List.mem_cons, List.not_mem_nil, or_false] at hkv
            rcases hkv with rfl | rfl | rfl <;> decide)
        (by decide) (by decide) (by decide)
        (by intro r hr
            rw [List.mem_singleton.1 hr]
            exact ⟨"aave-v3", by decide⟩)
        (by intro r hr
            rw [List.mem_singleton.1 hr]
            exact ⟨"Ethereum", by decide⟩)
        (by intro r hr
            rw [List.mem_singleton.1 hr]
            exact ⟨"USDC", by decide⟩)
        (by decide) (by decide) (by decide) (by decide) (by decide)
    refine ⟨fr2, h1, ?_, ?_, h7⟩
    · intro hmem
      exact (by decide : ¬("apy_total" ∈ (["protocol", "chain", "asset"] : List String)
        ∧ "apy_30d_avg" ∈ (["protocol", "chain", "asset"] : List String))) (h2.1 hmem)
    · intro hmem
      exact (by decide : ¬("apy_total" ∈ (["protocol", "chain", "asset"] : List String)
        ∧ "apy_30d_avg" ∈ (["protocol", "chain", "asset"] : List String))) (h6.1 hmem)
  · exact C3_enrich_optionality.2.2.1 "t" "2024-01-01" 0
      ⟨["protocol", "asset"],
       [[("protocol", Value.str "aave-v3"), ("asset", Value.str "USDC")]]⟩
      (by decide) (by decide)
      (by intro r hr
          rw [show (enrichMetrics (enrichBase "t" "2024-01-01" 0
              ⟨["protocol", "asset"],
               [[("protocol", Value.str "aave-v3"),
                 ("asset", Value.str "USDC")]]⟩)).rows =
            [[("protocol", Value.str "aave-v3"), ("asset", Value.str "USDC"),
              ("timestamp", Value.str "t"), ("date", Value.str "2024-01-01"),
              ("collection_hour", Value.num 0)]] from by decide] at hr
          rw [List.mem_singleton.1 hr]
          exact ⟨"aave-v3", by decide⟩)
      (by decide)
  · exact C3_enrich_optionality.2.2.2 "t" "2024-01-01" 0
      ⟨["protocol", "chain"],
       [[("protocol", Value.str "aave-v3"), ("chain", Value.str "Ethereum")]]⟩
      (by decide) (by decide)
      (by intro r hr
          rw [show (enrichMetrics (enrichBase "t" "2024-01-01" 0
              ⟨["protocol", "chain"],
               [[("protocol", Value.str "aave-v3"),
                 ("chain", Value.str "Ethereum")]]⟩)).rows =
            [[("protocol", Value.str "aave-v3"), ("chain", Value.str "Ethereum"),
              ("timestamp", Value.str "t"), ("date", Value.str "2024-01-01"),
              ("collection_hour", Value.num 0)]] from by decide] at hr
          rw [List.mem_singleton.1 hr]
          exact ⟨"aave-v3", by decide⟩)
      (by decide)
      (by intro r hr
          rw [show (enrichMetrics (enrichBase "t" "2024-01-01" 0
              ⟨["protocol", "chain"],
               [[("protocol", Value.str "aave-v3"),
                 ("chain", Value.str "Ethereum")]]⟩)).rows =
            [[("protocol", Value.str "aave-v3"), ("chain", Value.str "Ethereum"),
              ("timestamp", Value.str "t"), ("date", Value.str "2024-01-01"),
              ("collection_hour", Value.num 0)]] from by decide] at hr
          rw [List.mem_singleton.1 hr]
          exact ⟨"Ethereum", by decide⟩)
      (by decide)

theorem charListLe_total (as bs : List Char) :
    charListLe as bs = true ∨ charListLe bs as = true := by
  induction as generalizing bs with
  | nil => exact Or.inl rfl
  | cons a as ih =>
    cases bs with
    | nil => exact Or.inr rfl
    | cons b bs =>
      by_cases hab : a < b
      · left
        simp [charListLe, hab]
      · by_cases hba : b < a
        · right
          simp [charListLe, hba]
        · rcases ih bs with h | h
          · left
            simp [charListLe, hab, hba, h]
          · right
            simp [charListLe, hab, hba, h]

theorem charListLe_antisymm (as bs : List Char)
    (h1 : charListLe as bs = true) (h2 : charListLe bs as = true) : as = bs := by
  induction as generalizing bs with
  | nil =>
    cases bs with
    | nil => rfl
    | cons b bs => exact absurd h2 (by simp [charListLe])
  | cons a as ih =>
    cases bs with
    | nil => exact absurd h1 (by simp [charListLe])
    | cons b bs =>
      by_cases hab : a < b
      · have : ¬ b < a := lt_asymm hab
        simp [charListLe, hab, this] at h2
      · by_cases hba : b < a
        · simp [charListLe, hab, hba] at h1
        · have hEq : a = b := le_antisymm (not_lt.1 hba) (not_lt.1 hab)
          subst hEq
          simp only [charListLe, lt_irrefl, if_false] at h1 h2
          rw [ih bs (by simpa using h1) (by simpa using h2)]

theorem charListLe_trans (as bs cs : List Char)
    (h1 : charListLe as bs = true) (h2 : charListLe bs cs = true) :
    charListLe as cs = true := by
  induction as generalizing bs cs with
  | nil => rfl
  | cons a as ih =>
    cases bs with
    | nil => exact absurd h1 (by simp [charListLe])
    | cons b bs =>
      cases cs with
      | nil => exact absurd h2 (by simp [charListLe])
      | cons c cs =>
        by_cases hab : a < b
        · by_cases hbc : b < c
          · simp [charListLe, lt_trans hab hbc]
          · by_cases hcb : c < b
            · simp only [charListLe, hbc, hcb, if_false, if_true,
                Bool.false_eq_true] at h2
            · have : b = c := le_antisymm (not_lt.1 hcb) (not_lt.1 hbc)
              subst this
              simp [charListLe, hab]
        · by_cases hba : b < a
          · simp only [charListLe, hab, hba, if_false, if_true,
              Bool.false_eq_true] at h1
          · have : a = b := le_antisymm (not_lt.1 hba) (not_lt.1 hab)
            subst this
            by_cases hac : a < c
            · simp [charListLe, hac]
            · by_cases hca : c < a
              · simp only [charListLe, hac, hca, if_false, if_true,
                  Bool.false_eq_true] at h2
              · have : a = c := le_antisymm (not_lt.1 hca) (not_lt.1 hac)
                subst this
                simp only [charListLe, lt_irrefl, if_false] at h1 h2 ⊢
                exact ih bs cs (by simpa using h1) (by simpa using h2)

theorem keyLe_total (r1 r2 : Row) : (keyLe r1 r2 || keyLe r2 r1) = true := by
  unfold keyLe
  by_cases hp : rowStr r1 "pool" = rowStr r2 "pool"
  · have h1 : (rowStr r1 "pool" == rowStr r2 "pool") = true := by simpa using hp
    have h2 : (rowStr r2 "pool" == rowStr r1 "pool") = true := by simpa using hp.symm
    simp only [h1, h2, if_true]
    rcases charListLe_total (rowStr r1 "date").data (rowStr r2 "date").data with h | h
      <;> simp [strLe, h]
  · have h1 : (rowStr r1 "pool" == rowStr r2 "pool") = false := by simpa using hp
    have h2 : (rowStr r2 "pool" == rowStr r1 "pool") = false := by
      simpa using fun e => hp e.symm
    simp only [h1, h2, Bool.false_eq_true, if_false]
    rcases charListLe_total (rowStr r1 "pool").data (rowStr r2 "pool").data with h | h
      <;> simp [strLe, h]

theorem keyLe_trans (r1 r2 r3 : Row) (h1 : keyLe r1 r2 = true)
    (h2 : keyLe r2 r3 = true) : keyLe r1 r3 = true := by
  unfold keyLe at *
  by_cases h12 : rowStr r1 "pool" = rowStr r2 "pool"
  · by_cases h23 : rowStr r2 "pool" = rowStr r3 "pool"
    · have h13 : rowStr r1 "pool" = rowStr r3 "pool" := h12.trans h23
      rw [if_pos (by simpa using h12)] at h1
      rw [if_pos (by simpa using h23)] at h2
      rw [if_pos (by simpa using h13)]
      exact charListLe_trans _ _ _ h1 h2
    · have h13 : ¬ rowStr r1 "pool" = rowStr r3 "pool" := by
        rw [h12]
        exact h23
      rw [if_neg (by simpa using h23)] at h2
      rw [if_neg (by simpa using h13)]
      rw [strLe, h12]
      exact h2
  · by_cases h23 : rowStr r2 "pool" = rowStr r3 "pool"
    · have h13 : ¬ rowStr r1 "pool" = rowStr r3 "pool" := by
        rw [← h23]
        exact h12
      rw [if_neg (by simpa using h12)] at h1
      rw [if_neg (by simpa using h13)]
      rw [strLe, ← h23]
      exact h1
    · rw [if_neg (by simpa using h12)] at h1
      rw [if_neg (by simpa using h23)] at h2
      by_cases h13 : rowStr r1 "pool" = rowStr r3 "pool"
      · exfalso
        apply h12
        refine String.ext (charListLe_antisymm _ _ h1 ?_)
        rw [strLe, ← h13] at h2
        exact h2
      · rw [if_neg (by simpa using h13)]
        exact charListLe_trans _ _ _ h1 h2

/-- C6: for every non-empty set of snapshot files the panel is the pure
row-wise concatenation of the snapshots — a permutation, with no
deduplication or merging — sorted ascending by the `(pool, date)` key,
and it is written to `processed/yield_panel.csv`.  The `hpd` hypothesis
records the pandas precondition that every snapshot carries the `pool`
and `date` sort columns (`sort_values` would raise otherwise); the
Collector writes both into every snapshot. -/
theorem C6_panel_concat_sorted (raw : List (String × Frame))
    (hne : selectFiles raw ≠ [])
    (hpd : ∀ f ∈ selectFiles raw, "pool" ∈ f.2.cols ∧ "date" ∈ f.2.cols) :
    ∃ panel, build_panel_dataset raw =
        (some panel, [("processed/yield_panel.csv", panel)])
      ∧ List.Perm panel.rows ((selectFiles raw).map (fun f => f.2.rows)).flatten
      ∧ panel.rows.Pairwise (fun a b => keyLe a b = true) := by
  unfold build_panel_dataset
  rw [if_neg (by simpa [List.isEmpty_iff] using hne)]
  refine ⟨_, rfl, ?_, ?_⟩
  · exact List.mergeSort_perm _ _
  · exact List.sorted_mergeSort keyLe_trans keyLe_total _

unseal List.merge List.mergeSort in
/-- Witness for C6: two single-row snapshots for pool `A`, listed in
reverse chronological order, produce a panel in which the `2024-01-01`
row precedes the `2024-01-02` row. -/
theorem C6_panel_concat_sorted_witness :
    selectFiles
        [("defi_yields_20240102_0000.csv",
          (⟨["pool", "date"],
            [[("pool", Value.str "A"), ("date", Value.str "2024-01-02")]]⟩ : Frame)),
         ("defi_yields_20240101_0000.csv",
          (⟨["pool", "date"],
            [[("pool", Value.str "A"), ("date", Value.str "2024-01-01")]]⟩ : Frame))] ≠ []
    ∧ (∃ panel, build_panel_dataset
        [("defi_yields_20240102_0000.csv",
          (⟨["pool", "date"],
            [[("pool", Value.str "A"), ("date", Value.str "2024-01-02")]]⟩ : Frame)),
         ("defi_yields_20240101_0000.csv",
          (⟨["pool", "date"],
            [[("pool", Value.str "A"), ("date", Value.str "2024-01-01")]]⟩ : Frame))] =
          (some panel, [("processed/yield_panel.csv", panel)])
        ∧ List.Perm panel.rows ((selectFiles
            [("defi_yields_20240102_0000.csv",
              (⟨["pool", "date"],
                [[("pool", Value.str "A"), ("date", Value.str "2024-01-02")]]⟩ : Frame)),
             ("defi_yields_20240101_0000.csv",
              (⟨["pool", "date"],
                [[("pool", Value.str "A"), ("date", Value.str "2024-01-01")]]⟩ : Frame))]).map
                  (fun f => f.2.rows)).flatten
        ∧ panel.rows.Pairwise (fun a b => keyLe a b = true))
    ∧ (build_panel_dataset
        [("defi_yields_20240102_0000.csv",
          (⟨["pool", "date"],
            [[("pool", Value.str "A"), ("date", Value.str "2024-01-02")]]⟩ : Frame)),
         ("defi_yields_20240101_0000.csv",
          (⟨["pool", "date"],
            [[("pool", Value.str "A"), ("date", Value.str "2024-01-01")]]⟩ : Frame))]).1 =
        some ⟨["pool", "date"],
          [[("pool", Value.str "A"), ("date", Value.str "2024-01-01")],
           [("pool", Value.str "A"), ("date", Value.str "2024-01-02")]]⟩ :=
  ⟨by decide, C6_panel_concat_sorted _ (by decide) (by decide), by decide⟩

/-- C7: with zero timestamped snapshot files, `build_panel_dataset`
returns `None` and writes no output file. -/
theorem C7_no_snapshots_no_output (raw : List (String × Frame))
    (h : selectFiles raw = []) :
    build_panel_dataset raw = (none, []) := by
  unfold build_panel_dataset
  rw [h]
  rfl

/-- Witness for C7: a directory holding only the `latest` file and a
non-matching file yields no panel and no write. -/
theorem C7_no_snapshots_no_output_witness :
    selectFiles [("defi_yields_latest.csv", (⟨[], []⟩ : Frame)),
        ("notes.txt", (⟨[], []⟩ : Frame))] = []
    ∧ build_panel_dataset [("defi_yields_latest.csv", (⟨[], []⟩ : Frame)),
        ("notes.txt", (⟨[], []⟩ : Frame))] = (none, []) :=
  ⟨by decide, C7_no_snapshots_no_output _ (by decide)⟩

/-- C8: a transport/HTTP failure makes `fetch_defillama_pools` return the
empty list rather than raise, and an empty fetch result makes the
collector's `main` abort without writing any file. -/
theorem C8_fetch_failure_aborts :
    (∀ e : String, fetch_defillama_pools (Except.error e) = [])
    ∧ ∀ (resp : Except String (Option (List Row))) (ts dateStr : String)
        (hour : ℚ) (stamp : String),
        fetch_defillama_pools resp = [] →
        main_collector resp ts dateStr hour stamp = [] := by
  constructor
  · intro e
    rfl
  · intro resp ts dateStr hour stamp h
    simp [main_collector, h]

/-- Witness for C8: a concrete timeout error produces an empty pool list
and a run that writes nothing. -/
theorem C8_fetch_failure_aborts_witness :
    main_collector (Except.error "timeout") "t" "2024-01-01" 0 "20240101_0000" = [] :=
  C8_fetch_failure_aborts.2 _ _ _ _ _ (C8_fetch_failure_aborts.1 "timeout")

/-- C10: every file selected into the panel matches the snapshot glob and
has no occurrence of `latest` anywhere in its name, so the panel is
unchanged if all `latest`-named files are removed from the directory:
their rows never reach the output. -/
theorem C10_latest_excluded (raw : List (String × Frame)) :
    (∀ f ∈ selectFiles raw,
       matchesSnapshotGlob f.1 = true ∧ substrIn "latest" f.1 = false)
    ∧ build_panel_dataset raw =
        build_panel_dataset (raw.filter (fun f => !(substrIn "latest" f.1))) := by
  constructor
  · intro f hf
    unfold selectFiles at hf
    have h2 := List.mem_filter.1 hf
    have h3 := List.mem_filter.1 h2.1
    refine ⟨h3.2, ?_⟩
    simpa using h2.2
  · have hsel : selectFiles raw =
        selectFiles (raw.filter (fun f => !(substrIn "latest" f.1))) := by
      unfold selectFiles
      rw [List.filter_filter, List.filter_filter, List.filter_filter]
      refine List.filter_congr ?_
      intro f hf
      cases h1 : substrIn "latest" f.1 <;>
        cases h2 : matchesSnapshotGlob f.1 <;> simp [h1, h2]
    unfold build_panel_dataset
    rw [hsel]

/-- Witness for C10: a file that matches `defi_yields_*.csv` but has
`latest` in the middle of its name is excluded, and a directory holding
only such a file builds the same (absent) panel as an empty one. -/
theorem C10_latest_excluded_witness :
    matchesSnapshotGlob "defi_yields_20240101_latest.csv" = true
    ∧ (∀ f ∈ selectFiles
        [("defi_yields_20240101_latest.csv", (⟨[], []⟩ : Frame))],
        matchesSnapshotGlob f.1 = true ∧ substrIn "latest" f.1 = false)
    ∧ build_panel_dataset
        [("defi_yields_20240101_latest.csv", (⟨[], []⟩ : Frame))] =
        build_panel_dataset [] := by
  refine ⟨by decide, (C10_latest_excluded _).1, ?_⟩
  have h := (C10_latest_excluded
    [("defi_yields_20240101_latest.csv", (⟨[], []⟩ : Frame))]).2
  rw [h, show ([("defi_yields_20240101_latest.csv", (⟨[], []⟩ : Frame))].filter
    (fun f => !(substrIn "latest" f.1))) = [] from by decide]
